import Mathlib

/-!
Verification of the client-side video stitching pipeline.

The development shallowly embeds the pipeline script: the ffmpeg virtual
file store is a `Finset String` of filenames, every asynchronous external
operation (engine load, command execution, artifact read/write/delete,
clip fetch) is recorded as an `Op`, and the outcomes of the external
collaborators (network, engine) are supplied by an `Env`.  Each `await`ed
operation forms its own batch in the trace; a `Promise.all` forms a single
batch containing all operations it issues concurrently.
-/

namespace VideoStitch

/-- A value thrown by an awaited operation: either a JS `Error` carrying a
message, or some non-`Error` value (`error instanceof Error` is false). -/
inductive Thrown where
  | err (msg : String)
  | nonError
deriving DecidableEq, Repr

/-- The ffmpeg virtual file store: the set of filenames currently present. -/
abbrev Store := Finset String

/-- One asynchronous operation issued against the shared engine / store. -/
inductive Op where
  | load
  | fetch (i : Nat)
  | write (f : String)
  | exec (args : List String)
  | read (f : String)
  | delete (f : String)
deriving DecidableEq, Repr

/-- Outcomes of the external collaborators for one run: whether the engine
load, each clip fetch, each probe command, each probe read-back, each
normalization command, the concat command, the final read and the metadata
load succeed, and with what error. -/
structure Env where
  loadResult : Except Thrown Unit
  fetchResult : Nat → Except Thrown Unit
  probeExecResult : Nat → Except Thrown Unit
  probeReadResult : Nat → Option Nat
  normExecResult : Nat → Except Thrown Unit
  concatExecResult : Except Thrown Unit
  presentReadResult : Except Thrown Unit
  presentMetaOk : Bool

/-- The fixed clip source list (the `clips` constant). -/
def clips : List String :=
  ["https://videos.pexels.com/video-files/7125369/7125369-sd_426_240_30fps.mp4",
   "https://videos.pexels.com/video-files/17700150/17700150-sd_426_240_30fps.mp4",
   "https://videos.pexels.com/video-files/34678935/14699130_640_360_50fps.mp4",
   "https://videos.pexels.com/video-files/20048065/20048065-sd_426_240_30fps.mp4"]

/-- The `AUDIO_SOURCE` constant: the synthetic silent stereo 48000 Hz source. -/
def AUDIO_SOURCE : String := "anullsrc=channel_layout=stereo:sample_rate=48000"

/-- Raw download filename for clip `i` (`raw-${i}.mp4`). -/
def rawName (i : Nat) : String := "raw-" ++ toString i ++ ".mp4"

/-- Normalized output filename for clip `i` (`stitch-ready-${index}.mp4`). -/
def outName (i : Nat) : String := "stitch-ready-" ++ toString i ++ ".mp4"

/-- Probe scratch filename for clip `i` (`probe-audio-${index}.aac`). -/
def probeName (i : Nat) : String := "probe-audio-" ++ toString i ++ ".aac"

/-- The probe command issued by `clipHasAudio`. -/
def probeCmd (filename : String) (i : Nat) : List String :=
  ["-y", "-i", filename, "-map", "0:a:0", "-c", "copy", "-frames:a", "1", probeName i]

/-- The remux command of `ensureAudioTrack` (probe reported audio):
stream-copy video, encode audio to AAC at 48000 Hz / 2 channels,
faststart layout. -/
def remuxCmd (filename output : String) : List String :=
  ["-y", "-i", filename, "-c:v", "copy", "-c:a", "aac", "-ar", "48000",
   "-ac", "2", "-movflags", "+faststart", output]

/-- The silent-audio synthesis command of `ensureAudioTrack` (probe reported
no audio): map the original video stream and the synthetic silent source,
truncate with `-shortest`, encode audio to AAC, copy video, faststart. -/
def silenceCmd (filename output : String) : List String :=
  ["-y", "-i", filename, "-f", "lavfi", "-i", AUDIO_SOURCE, "-shortest",
   "-map", "0:v:0", "-map", "1:a:0", "-c:v", "copy", "-c:a", "aac",
   "-ar", "48000", "-ac", "2", "-movflags", "+faststart", output]

/-- The copy-mode concatenation command of `stitch`. -/
def concatCmd : List String :=
  ["-y", "-f", "concat", "-safe", "0", "-i", "concat.txt", "-c", "copy",
   "-movflags", "+faststart", "stitched.mp4"]

/-- The store action of `ffmpeg.deleteFile`: deleting a present filename removes it; deleting a
missing filename rejects. -/
def deleteFile (f : String) (s : Store) : Except String Store :=
  if f ∈ s then .ok (s.erase f) else .error "ENOENT"

/-- The function `safeDelete` as the source writes it: `try { deleteFile } catch {}` —
the result of the try/catch, which is always a normal return. -/
def safeDeleteE (f : String) (s : Store) : Except String Store :=
  match deleteFile f s with
  | .ok s1 => .ok s1
  | .error _ => .ok s

/-- The store after `safeDelete f`. -/
def safeDelete (f : String) (s : Store) : Store :=
  match deleteFile f s with
  | .ok s1 => s1
  | .error _ => s

/-- Draining a ledger: delete every tracked filename with `safeDelete`
(`cleanupFiles.map(safeDelete)`). -/
def drainAll (ledger : List String) (s : Store) : Store :=
  ledger.foldl (fun st f => safeDelete f st) s

/-- JS `Set.prototype.add` on an insertion-ordered set kept as a list. -/
def setAdd (l : List String) (x : String) : List String :=
  if x ∈ l then l else l ++ [x]

/-- JS `String.prototype.toLowerCase` on the character sequence. -/
def lowerStr (s : String) : String := String.mk (s.data.map Char.toLower)

/-- JS `String.prototype.includes`: substring containment. -/
def strIncludes (hay needle : String) : Bool :=
  (List.range (hay.data.length + 1)).any fun k => needle.data.isPrefixOf (hay.data.drop k)

/-- The message `clipHasAudio` inspects: `error instanceof Error ?
error.message.toLowerCase() : ''` (a non-`Error` value yields `''`). -/
def probeMessage : Thrown → String
  | .err m => lowerStr m
  | .nonError => ""

/-- The probe-failure classification test of `clipHasAudio`:
`message.includes('matches no streams') || message.includes('output file is empty')`. -/
def expectedProbeFailure (message : String) : Bool :=
  strIncludes message "matches no streams" || strIncludes message "output file is empty"

/-- Result of `clipHasAudio`: the boolean outcome, whether the
unknown-failure warning was logged, the store afterwards, and the trace of
issued operation batches. -/
structure ProbeOut where
  hasAudio : Bool
  warned : Bool
  store : Store
  ops : List (List Op)
deriving DecidableEq

/-- The prober `clipHasAudio(filename, index)`: try to stream-copy one audio frame to
a scratch file; on command success, read the scratch back (`.catch(() => null)`)
and answer `data && data.byteLength > 0`; on command failure, classify the
lowercased message and answer false either way, warning on an unrecognized
message.  The scratch file is `safeDelete`d on both paths. -/
def clipHasAudio (env : Env) (i : Nat) (filename : String) (s : Store) : ProbeOut :=
  match env.probeExecResult i with
  | .ok _ =>
    let s1 := insert (probeName i) s
    let s2 := safeDelete (probeName i) s1
    { hasAudio := match env.probeReadResult i with
        | some n => decide (0 < n)
        | none => false
      warned := false
      store := s2
      ops := [[Op.exec (probeCmd filename i)], [Op.read (probeName i)], [Op.delete (probeName i)]] }
  | .error e =>
    let s2 := safeDelete (probeName i) s
    if expectedProbeFailure (probeMessage e) then
      { hasAudio := false, warned := false, store := s2,
        ops := [[Op.exec (probeCmd filename i)], [Op.delete (probeName i)]] }
    else
      { hasAudio := false, warned := true, store := s2,
        ops := [[Op.exec (probeCmd filename i)], [Op.delete (probeName i)]] }

/-- Result of one pipeline step that can reject: the settled value, the
store afterwards, and the trace of issued operation batches. -/
structure RunSt (α : Type) where
  res : Except Thrown α
  store : Store
  ops : List (List Op)

/-- The normalizer `ensureAudioTrack(filename, index)`: probe, then issue exactly one of
the two normalization commands chosen by the probe outcome; an engine
failure of that command rejects (is not caught). -/
def ensureAudioTrack (env : Env) (i : Nat) (filename : String) (s : Store) : RunSt String :=
  let output := outName i
  let p := clipHasAudio env i filename s
  if p.hasAudio then
    match env.normExecResult i with
    | .ok _ => ⟨.ok output, insert output p.store, p.ops ++ [[Op.exec (remuxCmd filename output)]]⟩
    | .error e => ⟨.error e, p.store, p.ops ++ [[Op.exec (remuxCmd filename output)]]⟩
  else
    match env.normExecResult i with
    | .ok _ => ⟨.ok output, insert output p.store, p.ops ++ [[Op.exec (silenceCmd filename output)]]⟩
    | .error e => ⟨.error e, p.store, p.ops ++ [[Op.exec (silenceCmd filename output)]]⟩

/-- The download loop of `downloadClips`, fetching clips `i, i+1, ...`
while `fuel` clips remain: each fetch is awaited, then the raw bytes are
written under `raw-${i}.mp4`; a fetch rejection aborts the loop. -/
def dlGo (env : Env) : Nat → Nat → Store → RunSt (List String)
  | _, 0, s => ⟨.ok [], s, []⟩
  | i, fuel + 1, s =>
    match env.fetchResult i with
    | .error e => ⟨.error e, s, [[Op.fetch i]]⟩
    | .ok _ =>
      let s1 := insert (rawName i) s
      let rest := dlGo env (i + 1) fuel s1
      ⟨Except.map (fun l => rawName i :: l) rest.res, rest.store,
        [[Op.fetch i], [Op.write (rawName i)]] ++ rest.ops⟩

/-- The fetch stage `downloadClips()`: fetch and write every clip of the fixed list. -/
def downloadClips (env : Env) (s : Store) : RunSt (List String) :=
  dlGo env 0 clips.length s

/-- State of the normalization loop: the collected `concatSources`, the
store, the `cleanupFiles` ledger and the trace. -/
structure NormSt where
  res : Except Thrown (List String)
  store : Store
  cleanup : List String
  ops : List (List Op)

/-- The per-clip loop of the orchestrator: `ensureAudioTrack` for each raw
file in order; each produced output is pushed onto `concatSources` and
added to `cleanupFiles`; a rejection aborts the loop before the push. -/
def normGo (env : Env) : List String → Nat → Store → List String → NormSt
  | [], _, s, c => ⟨.ok [], s, c, []⟩
  | raw :: rest, i, s, c =>
    let e := ensureAudioTrack env i raw s
    match e.res with
    | .error err => ⟨.error err, e.store, c, e.ops⟩
    | .ok out =>
      let r := normGo env rest (i + 1) e.store (setAdd c out)
      ⟨Except.map (fun l => out :: l) r.res, r.store, r.cleanup, e.ops ++ r.ops⟩

/-- One manifest line: `file '<filename>'`. -/
def manifestLine (name : String) : String :=
  "file " ++ String.singleton (Char.ofNat 39) ++ name ++ String.singleton (Char.ofNat 39)

/-- The concat manifest built by `stitch`:
`files.map((name) => ...).join('\n')`. -/
def stitchManifest (files : List String) : String :=
  String.intercalate "\n" (files.map manifestLine)

/-- The concatenation planner `stitch(files)`: write the manifest under `concat.txt`, run the
copy-mode join, and (only if the join succeeded) `safeDelete` the
manifest; the final artifact is `stitched.mp4`. -/
def stitch (env : Env) (s : Store) : RunSt String :=
  let s1 := insert "concat.txt" s
  match env.concatExecResult with
  | .error e => ⟨.error e, s1, [[Op.write "concat.txt"], [Op.exec concatCmd]]⟩
  | .ok _ =>
    let s2 := insert "stitched.mp4" s1
    let s3 := safeDelete "concat.txt" s2
    ⟨.ok "stitched.mp4", s3,
      [[Op.write "concat.txt"], [Op.exec concatCmd], [Op.delete "concat.txt"]]⟩

/-- The presentation adapter `presentResult(filename)`: read the final artifact back, then suspend
on the one-shot metadata event; a metadata error rejects with the fixed
message. -/
def presentResult (env : Env) (filename : String) (s : Store) : RunSt Unit :=
  match env.presentReadResult with
  | .error e => ⟨.error e, s, [[Op.read filename]]⟩
  | .ok _ =>
    if env.presentMetaOk then ⟨.ok (), s, [[Op.read filename]]⟩
    else ⟨.error (.err "Could not load stitched video metadata."), s, [[Op.read filename]]⟩

/-- The guarded loader `ensureCore()`: await the one-time engine load. -/
def ensureCore (env : Env) (s : Store) : RunSt Unit :=
  match env.loadResult with
  | .ok _ => ⟨.ok (), s, [[Op.load]]⟩
  | .error e => ⟨.error e, s, [[Op.load]]⟩

/-- The status message set by the `catch` block of the handler. -/
def failMsg : Thrown → String
  | .err m => "Failed: " ++ m
  | .nonError => "Failed to process clips."

/-- Observable outcome of one run of the `DOMContentLoaded` handler: the
final status-channel string, the final store, the ledger that was drained
(`none` when drainage never ran), and the trace of operation batches. -/
structure RunOut where
  status : String
  store : Store
  drained : Option (List String)
  ops : List (List Op)

/-- The `DOMContentLoaded` handler: load the engine, download all clips,
seed `cleanupFiles` with the raw filenames, normalize each clip in order,
stitch, present, then drain the ledger with `Promise.all(...)` — the
drain is a single batch of concurrently issued deletions.  Any rejection
reaches the `catch` block, which only sets the failure status. -/
def runPipeline (env : Env) : RunOut :=
  let c0 := ensureCore env ∅
  match c0.res with
  | .error e => ⟨failMsg e, c0.store, none, c0.ops⟩
  | .ok _ =>
    let d := downloadClips env c0.store
    match d.res with
    | .error e => ⟨failMsg e, d.store, none, c0.ops ++ d.ops⟩
    | .ok rawFiles =>
      let n := normGo env rawFiles 0 d.store (rawFiles.foldl setAdd [])
      match n.res with
      | .error e => ⟨failMsg e, n.store, none, c0.ops ++ d.ops ++ n.ops⟩
      | .ok _ =>
        let st := stitch env n.store
        match st.res with
        | .error e => ⟨failMsg e, st.store, none, c0.ops ++ d.ops ++ n.ops ++ st.ops⟩
        | .ok stitched =>
          let p := presentResult env stitched st.store
          match p.res with
          | .error e => ⟨failMsg e, p.store, none, c0.ops ++ d.ops ++ n.ops ++ st.ops ++ p.ops⟩
          | .ok _ =>
            ⟨"Done. Press play!", drainAll n.cleanup p.store, some n.cleanup,
              c0.ops ++ d.ops ++ n.ops ++ st.ops ++ p.ops ++ [n.cleanup.map Op.delete]⟩

/-- An environment in which every external operation succeeds and every
probe finds audio. -/
def okEnv : Env where
  loadResult := .ok ()
  fetchResult := fun _ => .ok ()
  probeExecResult := fun _ => .ok ()
  probeReadResult := fun _ => some 1234
  normExecResult := fun _ => .ok ()
  concatExecResult := .ok ()
  presentReadResult := .ok ()
  presentMetaOk := true

/-- Like `okEnv`, but the fetch of the 3rd clip (index 2) rejects. -/
def fetchFailEnv : Env :=
  { okEnv with fetchResult := fun i => if i = 2 then .error (.err "network error") else .ok () }

/-- Like `okEnv`, but every probe command rejects with an unrecognized
message. -/
def probeFailEnv : Env :=
  { okEnv with probeExecResult := fun _ => .error (.err "Oops") }

/-- Like `okEnv`, but the normalization command of clip 0 rejects. -/
def normFailEnv : Env :=
  { okEnv with normExecResult := fun i => if i = 0 then .error (.err "conversion failed") else .ok () }

/-- Like `okEnv`, but every probe command rejects with the same message as
`probeFailEnv` in upper case. -/
def probeFailEnvUpper : Env :=
  { okEnv with probeExecResult := fun _ => .error (.err "OOPS") }

/-- Like `okEnv`, but every probe command rejects with a non-`Error`
thrown value. -/
def probeFailNonErrorEnv : Env :=
  { okEnv with probeExecResult := fun _ => .error .nonError }

/-- The normalized output names produced for `n` clips starting at clip
index `i`. -/
def outsFrom (i : Nat) : Nat → List String
  | 0 => []
  | n + 1 => outName i :: outsFrom (i + 1) n

/-- The ledger contents at drain time on a fully successful run. -/
def cleanupExpected : List String :=
  [rawName 0, rawName 1, rawName 2, rawName 3, outName 0, outName 1, outName 2, outName 3]

end VideoStitch

namespace VideoStitch

theorem dataAppend (a b : String) : (a ++ b).data = a.data ++ b.data := by
  cases a; cases b; rfl

theorem appended_head (a s t : String) (c : Char) (rest : List Char)
    (h : a.data = c :: rest) : ((a ++ s) ++ t).data.head? = some c := by
  rw [dataAppend, dataAppend, h]; rfl

theorem probeName_head (i : Nat) : (probeName i).data.head? = some 'p' :=
  appended_head "probe-audio-" (toString i) ".aac" 'p' ("robe-audio-".data) (by decide)

theorem rawName_head (i : Nat) : (rawName i).data.head? = some 'r' :=
  appended_head "raw-" (toString i) ".mp4" 'r' ("aw-".data) (by decide)

theorem outName_head (i : Nat) : (outName i).data.head? = some 's' :=
  appended_head "stitch-ready-" (toString i) ".mp4" 's' ("titch-ready-".data) (by decide)

theorem probeName_ne_rawName (i k : Nat) : probeName i ≠ rawName k := by
  intro h
  have e := congrArg (fun x : String => x.data.head?) h
  dsimp only at e
  rw [probeName_head, rawName_head] at e
  exact absurd e (by decide)

theorem probeName_ne_outName (i k : Nat) : probeName i ≠ outName k := by
  intro h
  have e := congrArg (fun x : String => x.data.head?) h
  dsimp only at e
  rw [probeName_head, outName_head] at e
  exact absurd e (by decide)

theorem safeDelete_eq_erase (f : String) (s : Store) : safeDelete f s = s.erase f := by
  by_cases h : f ∈ s
  · simp [safeDelete, deleteFile, h]
  · simp [safeDelete, deleteFile, h]

theorem drainAll_eq_sdiff (l : List String) (s : Store) : drainAll l s = s \ l.toFinset := by
  induction l generalizing s with
  | nil => simp [drainAll]
  | cons a t ih =>
    have h1 : drainAll (a :: t) s = drainAll t (safeDelete a s) := rfl
    rw [h1, ih, safeDelete_eq_erase, Finset.erase_eq, sdiff_sdiff_left, List.toFinset_cons,
      Finset.insert_eq, Finset.sup_eq_union]

/-- C9: cleanup is idempotent and error-swallowing: `safeDelete` always
returns normally (the try/catch result is always `ok`); deleting an absent
filename leaves the store unchanged; draining a ledger twice equals
draining it once; and draining after one tracked filename was already
independently deleted gives the same store as a single drain. -/
theorem c9_cleanup_idempotent :
    (∀ (f : String) (s : Store), safeDeleteE f s = .ok (safeDelete f s)) ∧
    (∀ (f : String) (s : Store), f ∉ s → safeDelete f s = s) ∧
    (∀ (l : List String) (s : Store), drainAll l (drainAll l s) = drainAll l s) ∧
    (∀ (l : List String) (s : Store) (f : String), f ∈ l →
      drainAll l (s.erase f) = drainAll l s) := by
  refine ⟨?_, ?_, ?_, ?_⟩
  · intro f s
    unfold safeDeleteE safeDelete
    cases deleteFile f s <;> rfl
  · intro f s h
    rw [safeDelete_eq_erase, Finset.erase_eq_of_not_mem h]
  · intro l s
    rw [drainAll_eq_sdiff, drainAll_eq_sdiff, sdiff_sdiff_left]
    simp
  · intro l s f h
    rw [drainAll_eq_sdiff, drainAll_eq_sdiff, Finset.erase_eq, sdiff_sdiff_left]
    congr 1
    rw [Finset.sup_eq_union, Finset.union_eq_right]
    simpa using h

theorem c9_witness :
    ("gone.mp4" ∉ (∅ : Store)) ∧
    safeDeleteE "gone.mp4" (∅ : Store) = .ok (safeDelete "gone.mp4" (∅ : Store)) ∧
    safeDelete "gone.mp4" (∅ : Store) = (∅ : Store) ∧
    drainAll ["a.mp4"] (drainAll ["a.mp4"] {"a.mp4", "b.mp4"}) =
      drainAll ["a.mp4"] {"a.mp4", "b.mp4"} ∧
    drainAll ["a.mp4"] (Finset.erase {"a.mp4", "b.mp4"} "a.mp4") =
      drainAll ["a.mp4"] {"a.mp4", "b.mp4"} :=
  ⟨by decide, c9_cleanup_idempotent.1 "gone.mp4" ∅,
   c9_cleanup_idempotent.2.1 "gone.mp4" ∅ (by decide),
   c9_cleanup_idempotent.2.2.1 ["a.mp4"] {"a.mp4", "b.mp4"},
   c9_cleanup_idempotent.2.2.2 ["a.mp4"] {"a.mp4", "b.mp4"} "a.mp4" (by decide)⟩

/-- C6: the manifest built by `stitch` is the newline-join of exactly one
line `file '<name>'` per input filename, in input order: the line list has
the same length as the input, its `i`-th entry is the line of the `i`-th
input (so reordering inputs reorders lines correspondingly), and the line
map is injective, so no two distinct filenames collapse (no
deduplication). -/
theorem c6_manifest_order (files : List String) :
    stitchManifest files = String.intercalate "\n" (files.map manifestLine) ∧
    (files.map manifestLine).length = files.length ∧
    (∀ i : Nat, (files.map manifestLine)[i]? = (files[i]?).map manifestLine) ∧
    (∀ a b : String, manifestLine a = manifestLine b → a = b) := by
  refine ⟨rfl, List.length_map files manifestLine, fun i => List.getElem?_map manifestLine files i, ?_⟩
  intro a b h
  have hd := congrArg String.data h
  simp only [manifestLine, dataAppend] at hd
  have h1 := List.append_cancel_right hd
  have h2 := List.append_cancel_left h1
  cases a; cases b
  exact congrArg String.mk h2

theorem c6_witness :
    (["b.mp4", "a.mp4"].map manifestLine).length = (["b.mp4", "a.mp4"] : List String).length ∧
    (["b.mp4", "a.mp4"].map manifestLine)[0]? =
      ((["b.mp4", "a.mp4"] : List String)[0]?).map manifestLine ∧
    ("a.mp4" : String) = "a.mp4" :=
  ⟨(c6_manifest_order ["b.mp4", "a.mp4"]).2.1,
   (c6_manifest_order ["b.mp4", "a.mp4"]).2.2.1 0,
   (c6_manifest_order ["b.mp4", "a.mp4"]).2.2.2 "a.mp4" "a.mp4" rfl⟩

end VideoStitch

namespace VideoStitch

/-- C4: whenever the probe engine command fails, `clipHasAudio` answers
"no audio" (false) and never rethrows: a failure whose (classified)
message indicates no matching stream or empty output is classified
silently (no warning); any other failure is logged as a warning and still
classified as "no audio"; and the pipeline is not aborted — with the probe
failed, `ensureAudioTrack` still completes normally when its own engine
command succeeds. -/
theorem c4_probe_failure_never_aborts (env : Env) (i : Nat) (f : String) (s : Store)
    (v : Thrown) (h : env.probeExecResult i = .error v) :
    (clipHasAudio env i f s).hasAudio = false ∧
    (clipHasAudio env i f s).warned = !expectedProbeFailure (probeMessage v) ∧
    (env.normExecResult i = .ok () → (ensureAudioTrack env i f s).res = .ok (outName i)) := by
  cases hc : expectedProbeFailure (probeMessage v) with
  | false =>
    refine ⟨by simp [clipHasAudio, h, hc], by simp [clipHasAudio, h, hc], fun hn => ?_⟩
    simp [ensureAudioTrack, clipHasAudio, h, hc, hn]
  | true =>
    refine ⟨by simp [clipHasAudio, h, hc], by simp [clipHasAudio, h, hc], fun hn => ?_⟩
    simp [ensureAudioTrack, clipHasAudio, h, hc, hn]

theorem c4_witness :
    (clipHasAudio probeFailEnv 0 "raw-0.mp4" ∅).hasAudio = false ∧
    (clipHasAudio probeFailEnv 0 "raw-0.mp4" ∅).warned =
      !expectedProbeFailure (probeMessage (.err "Oops")) ∧
    (ensureAudioTrack probeFailEnv 0 "raw-0.mp4" ∅).res = .ok (outName 0) := by
  have h := c4_probe_failure_never_aborts probeFailEnv 0 "raw-0.mp4" ∅ (.err "Oops") rfl
  exact ⟨h.1, h.2.1, h.2.2 rfl⟩

/-- C8: when the probe engine command succeeds, `clipHasAudio` answers
"has audio" exactly when the scratch read-back produced data of non-zero
byte length; a failed read-back (the `.catch` giving `null`) counts as
absence and yields "no audio". -/
theorem c8_probe_outcome_iff_nonempty_scratch (env : Env) (i : Nat) (f : String) (s : Store)
    (h : env.probeExecResult i = .ok ()) :
    ((clipHasAudio env i f s).hasAudio = true ↔
      ∃ n, env.probeReadResult i = some n ∧ 0 < n) ∧
    (env.probeReadResult i = none → (clipHasAudio env i f s).hasAudio = false) := by
  cases hr : env.probeReadResult i with
  | none => simp [clipHasAudio, h, hr]
  | some n => simp [clipHasAudio, h, hr]

theorem c8_witness : (clipHasAudio okEnv 0 "raw-0.mp4" ∅).hasAudio = true :=
  (c8_probe_outcome_iff_nonempty_scratch okEnv 0 "raw-0.mp4" ∅ rfl).1.mpr
    ⟨1234, rfl, by decide⟩

/-- C10: probe-failure classification is case-insensitive: the message is
lowercased before substring matching, so two `Error` messages with the
same lowercase form are classified identically and produce identical
`clipHasAudio` results; a thrown value that is not an `Error` is treated
as the empty message, which is never an expected-failure match, so it
lands in the unknown bucket: logged (warned) and classified "no audio". -/
theorem c10_lowercased_classification :
    (∀ m1 m2 : String, lowerStr m1 = lowerStr m2 →
      expectedProbeFailure (probeMessage (.err m1)) =
        expectedProbeFailure (probeMessage (.err m2))) ∧
    probeMessage .nonError = "" ∧
    expectedProbeFailure (probeMessage .nonError) = false ∧
    (∀ (env1 env2 : Env) (i : Nat) (f : String) (s : Store) (m1 m2 : String),
      env1.probeExecResult i = .error (.err m1) →
      env2.probeExecResult i = .error (.err m2) →
      lowerStr m1 = lowerStr m2 →
      (clipHasAudio env1 i f s).hasAudio = (clipHasAudio env2 i f s).hasAudio ∧
      (clipHasAudio env1 i f s).warned = (clipHasAudio env2 i f s).warned) ∧
    (∀ (env : Env) (i : Nat) (f : String) (s : Store),
      env.probeExecResult i = .error .nonError →
      (clipHasAudio env i f s).hasAudio = false ∧ (clipHasAudio env i f s).warned = true) := by
  refine ⟨?_, rfl, by decide, ?_, ?_⟩
  · intro m1 m2 hm
    simp [probeMessage, hm]
  · intro env1 env2 i f s m1 m2 h1 h2 hm
    have he : probeMessage (Thrown.err m1) = probeMessage (Thrown.err m2) := by
      simp [probeMessage, hm]
    cases hc : expectedProbeFailure (probeMessage (Thrown.err m1)) with
    | false =>
      have hc2 : expectedProbeFailure (probeMessage (Thrown.err m2)) = false := by
        rw [← he]; exact hc
      simp [clipHasAudio, h1, h2, hc, hc2]
    | true =>
      have hc2 : expectedProbeFailure (probeMessage (Thrown.err m2)) = true := by
        rw [← he]; exact hc
      simp [clipHasAudio, h1, h2, hc, hc2]
  · intro env i f s h
    have hc : expectedProbeFailure (probeMessage .nonError) = false := by decide
    simp [clipHasAudio, h, hc]

theorem c10_witness :
    lowerStr "Oops" = lowerStr "OOPS" ∧
    ((clipHasAudio probeFailEnv 0 "raw-0.mp4" ∅).hasAudio =
      (clipHasAudio probeFailEnvUpper 0 "raw-0.mp4" ∅).hasAudio ∧
     (clipHasAudio probeFailEnv 0 "raw-0.mp4" ∅).warned =
      (clipHasAudio probeFailEnvUpper 0 "raw-0.mp4" ∅).warned) ∧
    ((clipHasAudio probeFailNonErrorEnv 0 "raw-0.mp4" ∅).hasAudio = false ∧
     (clipHasAudio probeFailNonErrorEnv 0 "raw-0.mp4" ∅).warned = true) :=
  ⟨by decide,
   c10_lowercased_classification.2.2.2.1 probeFailEnv probeFailEnvUpper 0 "raw-0.mp4" ∅
     "Oops" "OOPS" rfl rfl (by decide),
   c10_lowercased_classification.2.2.2.2 probeFailNonErrorEnv 0 "raw-0.mp4" ∅ rfl⟩

end VideoStitch

namespace VideoStitch

theorem probeCmd_ne_remuxCmd (a b c : String) (j : Nat) : probeCmd a j ≠ remuxCmd b c := by
  intro h
  have hl := congrArg List.length h
  simp [probeCmd, remuxCmd] at hl

theorem probeCmd_ne_silenceCmd (a b c : String) (j : Nat) : probeCmd a j ≠ silenceCmd b c := by
  intro h
  have hl := congrArg List.length h
  simp [probeCmd, silenceCmd] at hl

theorem remuxCmd_ne_silenceCmd (a b c d : String) : remuxCmd a b ≠ silenceCmd c d := by
  intro h
  have hl := congrArg List.length h
  simp [remuxCmd, silenceCmd] at hl

theorem ensureAudioTrack_ops_shape (env : Env) (i : Nat) (f : String) (s : Store) :
    ((clipHasAudio env i f s).hasAudio = true ∧
      (ensureAudioTrack env i f s).ops =
        (clipHasAudio env i f s).ops ++ [[Op.exec (remuxCmd f (outName i))]]) ∨
    ((clipHasAudio env i f s).hasAudio = false ∧
      (ensureAudioTrack env i f s).ops =
        (clipHasAudio env i f s).ops ++ [[Op.exec (silenceCmd f (outName i))]]) := by
  cases hA : (clipHasAudio env i f s).hasAudio with
  | true =>
    left
    refine ⟨rfl, ?_⟩
    cases hn : env.normExecResult i <;> simp [ensureAudioTrack, hA, hn]
  | false =>
    right
    refine ⟨rfl, ?_⟩
    cases hn : env.normExecResult i <;> simp [ensureAudioTrack, hA, hn]

theorem clipHasAudio_ops_no_norm_cmd (env : Env) (i : Nat) (f : String) (s : Store) :
    ∀ b ∈ (clipHasAudio env i f s).ops,
      Op.exec (remuxCmd f (outName i)) ∉ b ∧ Op.exec (silenceCmd f (outName i)) ∉ b := by
  intro b hb
  cases hp : env.probeExecResult i with
  | ok _ =>
    simp only [clipHasAudio, hp] at hb
    fin_cases hb <;>
      simp [List.mem_singleton, probeCmd_ne_remuxCmd, probeCmd_ne_silenceCmd] <;>
      exact ⟨fun h => probeCmd_ne_remuxCmd f f (outName i) i h.symm,
             fun h => probeCmd_ne_silenceCmd f f (outName i) i h.symm⟩
  | error e =>
    cases hc : expectedProbeFailure (probeMessage e) <;>
      simp only [clipHasAudio, hp, hc, if_true, if_false, Bool.false_eq_true, ite_false,
        ite_true] at hb <;>
    fin_cases hb <;>
      simp [List.mem_singleton] <;>
      exact ⟨fun h => probeCmd_ne_remuxCmd f f (outName i) i h.symm,
             fun h => probeCmd_ne_silenceCmd f f (outName i) i h.symm⟩

/-- C5: `ensureAudioTrack` issues exactly one of the two mutually
exclusive normalization commands, chosen by the probe outcome: after the
probe's own operations (which contain neither command), exactly one final
engine command is issued — the remux command when the probe reported
audio, the silent-synthesis command when it reported none. -/
theorem c5_one_of_two_commands (env : Env) (i : Nat) (f : String) (s : Store) :
    remuxCmd f (outName i) ≠ silenceCmd f (outName i) ∧
    (((clipHasAudio env i f s).hasAudio = true ∧
      (ensureAudioTrack env i f s).ops =
        (clipHasAudio env i f s).ops ++ [[Op.exec (remuxCmd f (outName i))]]) ∨
     ((clipHasAudio env i f s).hasAudio = false ∧
      (ensureAudioTrack env i f s).ops =
        (clipHasAudio env i f s).ops ++ [[Op.exec (silenceCmd f (outName i))]])) ∧
    (∀ b ∈ (clipHasAudio env i f s).ops,
      Op.exec (remuxCmd f (outName i)) ∉ b ∧ Op.exec (silenceCmd f (outName i)) ∉ b) :=
  ⟨remuxCmd_ne_silenceCmd f (outName i) f (outName i),
   ensureAudioTrack_ops_shape env i f s,
   clipHasAudio_ops_no_norm_cmd env i f s⟩

theorem c5_witness :
    remuxCmd "raw-0.mp4" (outName 0) ≠ silenceCmd "raw-0.mp4" (outName 0) ∧
    (ensureAudioTrack okEnv 0 "raw-0.mp4" ∅).ops =
      (clipHasAudio okEnv 0 "raw-0.mp4" ∅).ops ++ [[Op.exec (remuxCmd "raw-0.mp4" (outName 0))]] ∧
    Op.exec (remuxCmd "raw-0.mp4" (outName 0)) ∉ [Op.exec (probeCmd "raw-0.mp4" 0)] := by
  have h := c5_one_of_two_commands okEnv 0 "raw-0.mp4" ∅
  refine ⟨h.1, ?_, (h.2.2 [Op.exec (probeCmd "raw-0.mp4" 0)] (by decide)).1⟩
  rcases h.2.1 with ⟨_, he⟩ | ⟨hf, _⟩
  · exact he
  · exact absurd hf (by decide)

theorem ensureAudioTrack_res_err (env : Env) (i : Nat) (f : String) (s : Store) (e : Thrown)
    (h : env.normExecResult i = .error e) :
    (ensureAudioTrack env i f s).res = .error e := by
  cases hA : (clipHasAudio env i f s).hasAudio <;> simp [ensureAudioTrack, hA, h]

/-- C7: a normalization engine failure propagates out of
`ensureAudioTrack` unhandled: the call rejects with the engine's error,
the per-clip loop stops at the failing clip (its trace is exactly the
failing call's trace, so no later clip is processed), and none of the
operations issued up to that point is the concatenation stage's manifest
write or join command. -/
theorem c7_normalization_failure_aborts (env : Env) (i : Nat) (f : String) (s : Store)
    (e : Thrown) (h : env.normExecResult i = .error e) :
    (ensureAudioTrack env i f s).res = .error e ∧
    (∀ (rest : List String) (s2 : Store) (c : List String),
      (normGo env (f :: rest) i s2 c).res = .error e ∧
      (normGo env (f :: rest) i s2 c).ops = (ensureAudioTrack env i f s2).ops) ∧
    (∀ b ∈ (ensureAudioTrack env i f s).ops, (∀ g : String, Op.write g ∉ b) ∧
      Op.exec concatCmd ∉ b) := by
  refine ⟨ensureAudioTrack_res_err env i f s e h, ?_, ?_⟩
  · intro rest s2 c
    have h2 := ensureAudioTrack_res_err env i f s2 e h
    constructor <;> simp [normGo, h2]
  · intro b hb
    have hops : (ensureAudioTrack env i f s).ops =
        (clipHasAudio env i f s).ops ++ [[Op.exec (remuxCmd f (outName i))]] ∨
        (ensureAudioTrack env i f s).ops =
        (clipHasAudio env i f s).ops ++ [[Op.exec (silenceCmd f (outName i))]] := by
      rcases ensureAudioTrack_ops_shape env i f s with ⟨_, he⟩ | ⟨_, he⟩
      · exact Or.inl he
      · exact Or.inr he
    have hprobe : ∀ b2 ∈ (clipHasAudio env i f s).ops,
        (∀ g : String, Op.write g ∉ b2) ∧ Op.exec concatCmd ∉ b2 := by
      intro b2 hb2
      cases hp : env.probeExecResult i with
      | ok _ =>
        simp only [clipHasAudio, hp] at hb2
        fin_cases hb2 <;>
          refine ⟨fun g => by simp, ?_⟩ <;> simp [List.mem_singleton] <;>
          intro hx <;> (have hl := congrArg List.length hx; simp [probeCmd, concatCmd] at hl)
      | error e2 =>
        cases hc : expectedProbeFailure (probeMessage e2) <;>
          simp only [clipHasAudio, hp, hc, Bool.false_eq_true, ite_false, ite_true] at hb2 <;>
        fin_cases hb2 <;>
          refine ⟨fun g => by simp, ?_⟩ <;> simp [List.mem_singleton] <;>
          intro hx <;> (have hl := congrArg List.length hx; simp [probeCmd, concatCmd] at hl)
    rcases hops with he | he <;> rw [he] at hb <;>
      rcases List.mem_append.mp hb with hA | hB
    · exact hprobe b hA
    · rw [List.mem_singleton.mp hB]
      refine ⟨fun g => by simp, ?_⟩
      simp [List.mem_singleton]
      intro hx
      have hl := congrArg List.length hx
      simp [remuxCmd, concatCmd] at hl
    · exact hprobe b hA
    · rw [List.mem_singleton.mp hB]
      refine ⟨fun g => by simp, ?_⟩
      simp [List.mem_singleton]
      intro hx
      have hl := congrArg List.length hx
      simp [silenceCmd, concatCmd] at hl

theorem c7_witness :
    (ensureAudioTrack normFailEnv 0 "raw-0.mp4" ∅).res = .error (.err "conversion failed") ∧
    (normGo normFailEnv ["raw-0.mp4", "raw-1.mp4"] 0 ∅ []).res =
      .error (.err "conversion failed") := by
  have h := c7_normalization_failure_aborts normFailEnv 0 "raw-0.mp4" ∅
    (.err "conversion failed") rfl
  exact ⟨h.1, (h.2.1 ["raw-1.mp4"] ∅ []).1⟩

end VideoStitch

namespace VideoStitch

theorem failMsg_ne_empty (e : Thrown) : failMsg e ≠ "" := by
  cases e with
  | err m =>
    intro h
    have h2 := congrArg String.data h
    rw [failMsg, dataAppend] at h2
    have h3 := (List.append_eq_nil.mp h2).1
    exact absurd h3 (by decide)
  | nonError => decide

theorem runPipeline_split (env : Env) :
    (runPipeline env).status = "Done. Press play!" ∨
    ∃ e, (runPipeline env).status = failMsg e ∧ (runPipeline env).drained = none := by
  simp only [runPipeline]
  repeat first
  | exact Or.inl rfl
  | exact Or.inr ⟨_, rfl, rfl⟩
  | split

end VideoStitch

namespace VideoStitch

/-- C1 counterexample: with the 3rd of 4 clip fetches failing, the run
surfaces the failure message, yet the artifacts written for clips 1 and 2
are still in the store afterwards — the ledger was not drained before the
failure message was surfaced. -/
theorem c1_counterexample :
    (runPipeline fetchFailEnv).status = "Failed: network error" ∧
    "raw-0.mp4" ∈ (runPipeline fetchFailEnv).store ∧
    "raw-1.mp4" ∈ (runPipeline fetchFailEnv).store := by
  decide

/-- C1 (amended): when any pipeline stage fails, the `catch` block only
surfaces a non-empty failure message on the status channel; artifact
drainage does NOT run on the failure path (the ledger is drained only on
the success path).  In particular, when the 3rd of 4 clip fetches fails,
the store afterwards still holds exactly the raw artifacts of clips 1 and
2. -/
theorem c1_no_drain_on_failure :
    (∀ env : Env, (runPipeline env).status ≠ "Done. Press play!" →
      (runPipeline env).drained = none ∧ (runPipeline env).status ≠ "") ∧
    (runPipeline fetchFailEnv).store = {"raw-0.mp4", "raw-1.mp4"} ∧
    (runPipeline fetchFailEnv).status = "Failed: network error" := by
  refine ⟨?_, by decide, by decide⟩
  intro env h
  rcases runPipeline_split env with hd | ⟨e, hs, hdr⟩
  · exact absurd hd h
  · exact ⟨hdr, by rw [hs]; exact failMsg_ne_empty e⟩

theorem c1_witness :
    (runPipeline fetchFailEnv).drained = none ∧ (runPipeline fetchFailEnv).status ≠ "" :=
  c1_no_drain_on_failure.1 fetchFailEnv (by decide)

end VideoStitch

namespace VideoStitch

theorem batches_append {X Y : List (List Op)}
    (hx : ∀ b ∈ X, b.length = 1) (hy : ∀ b ∈ Y, b.length = 1) :
    ∀ b ∈ X ++ Y, b.length = 1 := by
  intro b hb
  rcases List.mem_append.mp hb with h | h
  · exact hx b h
  · exact hy b h

theorem ensureCore_ops_singl (env : Env) (s : Store) :
    ∀ b ∈ (ensureCore env s).ops, b.length = 1 := by
  intro b hb
  cases h : env.loadResult <;> simp only [ensureCore, h] at hb <;> fin_cases hb <;> rfl

theorem dlGo_ops_singl (env : Env) :
    ∀ (fuel i : Nat) (s : Store), ∀ b ∈ (dlGo env i fuel s).ops, b.length = 1 := by
  intro fuel
  induction fuel with
  | zero =>
    intro i s b hb
    simp [dlGo] at hb
  | succ k ih =>
    intro i s b hb
    cases hf : env.fetchResult i with
    | error e =>
      simp only [dlGo, hf] at hb
      fin_cases hb <;> rfl
    | ok _ =>
      simp only [dlGo, hf] at hb
      rcases List.mem_append.mp hb with h | h
      · fin_cases h <;> rfl
      · exact ih (i + 1) _ b h

theorem downloadClips_ops_singl (env : Env) (s : Store) :
    ∀ b ∈ (downloadClips env s).ops, b.length = 1 :=
  fun b hb => dlGo_ops_singl env clips.length 0 s b hb

theorem clipHasAudio_ops_singl (env : Env) (i : Nat) (f : String) (s : Store) :
    ∀ b ∈ (clipHasAudio env i f s).ops, b.length = 1 := by
  intro b hb
  cases hp : env.probeExecResult i with
  | ok _ =>
    simp only [clipHasAudio, hp] at hb
    fin_cases hb <;> rfl
  | error e =>
    cases hc : expectedProbeFailure (probeMessage e) <;>
      simp only [clipHasAudio, hp, hc, Bool.false_eq_true, ite_false, ite_true] at hb <;>
      fin_cases hb <;> rfl

theorem ensureAudioTrack_ops_singl (env : Env) (i : Nat) (f : String) (s : Store) :
    ∀ b ∈ (ensureAudioTrack env i f s).ops, b.length = 1 := by
  intro b hb
  rcases ensureAudioTrack_ops_shape env i f s with ⟨_, he⟩ | ⟨_, he⟩ <;> rw [he] at hb <;>
    rcases List.mem_append.mp hb with h | h
  · exact clipHasAudio_ops_singl env i f s b h
  · fin_cases h; rfl
  · exact clipHasAudio_ops_singl env i f s b h
  · fin_cases h; rfl

theorem normGo_ops_singl (env : Env) :
    ∀ (l : List String) (i : Nat) (s : Store) (c : List String),
      ∀ b ∈ (normGo env l i s c).ops, b.length = 1 := by
  intro l
  induction l with
  | nil =>
    intro i s c b hb
    simp [normGo] at hb
  | cons raw rest ih =>
    intro i s c b hb
    simp only [normGo] at hb
    split at hb
    · exact ensureAudioTrack_ops_singl env i raw s b hb
    · rcases List.mem_append.mp hb with h | h
      · exact ensureAudioTrack_ops_singl env i raw s b h
      · exact ih (i + 1) _ _ b h

theorem stitch_ops_singl (env : Env) (s : Store) :
    ∀ b ∈ (stitch env s).ops, b.length = 1 := by
  intro b hb
  cases hc : env.concatExecResult <;> simp only [stitch, hc] at hb <;> fin_cases hb <;> rfl

theorem presentResult_ops_singl (env : Env) (f : String) (s : Store) :
    ∀ b ∈ (presentResult env f s).ops, b.length = 1 := by
  intro b hb
  cases hr : env.presentReadResult with
  | error e =>
    simp only [presentResult, hr] at hb
    fin_cases hb <;> rfl
  | ok _ =>
    cases hm : env.presentMetaOk <;>
      simp only [presentResult, hr, hm, Bool.false_eq_true, ite_false, ite_true] at hb <;>
      fin_cases hb <;> rfl

/-- C3 counterexample: on a fully successful run, the trace contains a
batch of eight concurrently issued deletions (the `Promise.all` cleanup
drain), so two store operations are in flight at once. -/
theorem c3_counterexample :
    (cleanupExpected.map Op.delete) ∈ (runPipeline okEnv).ops ∧
    2 ≤ (cleanupExpected.map Op.delete).length := by
  decide

/-- C3 (amended): all asynchronous operations are issued strictly
sequentially — each batch of the trace is a single awaited operation —
except the final cleanup drainage, which issues all ledger deletions
concurrently via `Promise.all`: any trace batch holding two or more
operations consists solely of artifact deletions. -/
theorem c3_sequential_except_drain (env : Env) :
    ∀ b ∈ (runPipeline env).ops, 2 ≤ b.length → ∀ o ∈ b, ∃ g, o = Op.delete g := by
  intro b hb h2 o ho
  simp only [runPipeline] at hb
  split at hb
  · exact absurd (ensureCore_ops_singl env ∅ b hb) (by omega)
  · split at hb
    · exact absurd (batches_append (ensureCore_ops_singl env ∅)
        (downloadClips_ops_singl env _) b hb) (by omega)
    · split at hb
      · exact absurd (batches_append
          (batches_append (ensureCore_ops_singl env ∅) (downloadClips_ops_singl env _))
          (normGo_ops_singl env _ _ _ _) b hb) (by omega)
      · split at hb
        · exact absurd (batches_append (batches_append
            (batches_append (ensureCore_ops_singl env ∅) (downloadClips_ops_singl env _))
            (normGo_ops_singl env _ _ _ _)) (stitch_ops_singl env _) b hb) (by omega)
        · split at hb
          · exact absurd (batches_append (batches_append (batches_append
              (batches_append (ensureCore_ops_singl env ∅) (downloadClips_ops_singl env _))
              (normGo_ops_singl env _ _ _ _)) (stitch_ops_singl env _))
              (presentResult_ops_singl env _ _) b hb) (by omega)
          · rcases List.mem_append.mp hb with h | hb
            · exact absurd (batches_append (batches_append (batches_append
                (batches_append (ensureCore_ops_singl env ∅) (downloadClips_ops_singl env _))
                (normGo_ops_singl env _ _ _ _)) (stitch_ops_singl env _))
                (presentResult_ops_singl env _ _) b h) (by omega)
            · rw [List.mem_singleton.mp hb] at ho
              rcases List.mem_map.mp ho with ⟨g, _, rfl⟩
              exact ⟨g, rfl⟩

theorem c3_witness :
    2 ≤ (cleanupExpected.map Op.delete).length ∧
    ∃ g, Op.delete (rawName 0) = Op.delete g :=
  ⟨by decide,
   c3_sequential_except_drain okEnv (cleanupExpected.map Op.delete) (by decide) (by decide)
     (Op.delete (rawName 0)) (by decide)⟩

end VideoStitch

namespace VideoStitch

theorem clipHasAudio_store (env : Env) (i : Nat) (f : String) (s : Store)
    (h : probeName i ∉ s) : (clipHasAudio env i f s).store = s := by
  cases hp : env.probeExecResult i with
  | ok _ =>
    simp only [clipHasAudio, hp]
    rw [safeDelete_eq_erase, Finset.erase_insert h]
  | error e =>
    cases hc : expectedProbeFailure (probeMessage e) <;>
      simp only [clipHasAudio, hp, hc, Bool.false_eq_true, ite_false, ite_true] <;>
      rw [safeDelete_eq_erase, Finset.erase_eq_of_not_mem h]

theorem ensureAudioTrack_res_ok (env : Env) (i : Nat) (f : String) (s : Store)
    (h : env.normExecResult i = .ok ()) :
    (ensureAudioTrack env i f s).res = .ok (outName i) := by
  cases hA : (clipHasAudio env i f s).hasAudio <;> simp [ensureAudioTrack, hA, h]

theorem ensureAudioTrack_store_ok (env : Env) (i : Nat) (f : String) (s : Store)
    (hn : env.normExecResult i = .ok ()) (hp : probeName i ∉ s) :
    (ensureAudioTrack env i f s).store = insert (outName i) s := by
  cases hA : (clipHasAudio env i f s).hasAudio <;>
    simp [ensureAudioTrack, hA, hn, clipHasAudio_store env i f s hp]

theorem normGo_all_ok (env : Env) (hn : ∀ j, env.normExecResult j = .ok ()) :
    ∀ (l : List String) (i : Nat) (s : Store) (c : List String), (∀ j, probeName j ∉ s) →
      (normGo env l i s c).res = .ok (outsFrom i l.length) ∧
      (normGo env l i s c).store = s ∪ (outsFrom i l.length).toFinset ∧
      (normGo env l i s c).cleanup = (outsFrom i l.length).foldl setAdd c := by
  intro l
  induction l with
  | nil =>
    intro i s c hp
    exact ⟨rfl, by simp [normGo, outsFrom], rfl⟩
  | cons raw rest ih =>
    intro i s c hp
    have hres := ensureAudioTrack_res_ok env i raw s (hn i)
    have hsto := ensureAudioTrack_store_ok env i raw s (hn i) (hp i)
    have hp2 : ∀ j, probeName j ∉ insert (outName i) s := by
      intro j
      simp only [Finset.mem_insert, not_or]
      exact ⟨probeName_ne_outName j i, hp j⟩
    obtain ⟨r1, r2, r3⟩ := ih (i + 1) (insert (outName i) s) (setAdd c (outName i)) hp2
    simp only [normGo, hres, hsto]
    refine ⟨?_, ?_, ?_⟩
    · simp [r1, outsFrom, Except.map]
    · simp [r2, outsFrom, List.toFinset_cons, Finset.insert_union, Finset.union_insert]
    · simp [r3, outsFrom]

theorem downloadClips_all_ok (env : Env) (hf : ∀ i, env.fetchResult i = .ok ()) (s : Store) :
    (downloadClips env s).res = .ok [rawName 0, rawName 1, rawName 2, rawName 3] ∧
    (downloadClips env s).store =
      insert (rawName 3) (insert (rawName 2) (insert (rawName 1) (insert (rawName 0) s))) := by
  have h4 : clips.length = 4 := rfl
  constructor <;>
    simp [downloadClips, h4, dlGo, hf 0, hf 1, hf 2, hf 3, Except.map]

/-- C2 counterexample: on a fully successful run, the ledger drained at
cleanup time omits both the probe scratch filename and the concat
manifest, even though the manifest was written to the store during the
run (the trace contains its write). -/
theorem c2_counterexample :
    (runPipeline okEnv).drained = some cleanupExpected ∧
    [Op.write "concat.txt"] ∈ (runPipeline okEnv).ops ∧
    "concat.txt" ∉ cleanupExpected ∧
    "probe-audio-0.aac" ∉ cleanupExpected := by
  decide

/-- C2 (amended): at the moment cleanup drainage runs, the cleanup ledger
contains exactly the raw downloads and the normalized clips, in creation
order; the probe scratch files and the concat manifest are never entered
in the ledger — they are deleted directly at their creation sites — and
on a successful run no intermediate artifact is orphaned: the final store
holds only the stitched deliverable. -/
theorem c2_ledger_contents (env : Env) (hl : env.loadResult = .ok ())
    (hf : ∀ i, env.fetchResult i = .ok ()) (hn : ∀ i, env.normExecResult i = .ok ())
    (hc : env.concatExecResult = .ok ()) (hr : env.presentReadResult = .ok ())
    (hm : env.presentMetaOk = true) :
    (runPipeline env).drained = some cleanupExpected ∧
    (runPipeline env).store = {"stitched.mp4"} ∧
    "concat.txt" ∉ cleanupExpected ∧
    (∀ j : Nat, probeName j ∉ cleanupExpected) ∧
    (runPipeline env).status = "Done. Press play!" := by
  obtain ⟨hd1, hd2⟩ := downloadClips_all_ok env hf ∅
  have hp0 : ∀ j, probeName j ∉
      insert (rawName 3) (insert (rawName 2) (insert (rawName 1)
        (insert (rawName 0) (∅ : Store)))) := by
    intro j
    simp only [Finset.mem_insert, Finset.not_mem_empty, not_or]
    exact ⟨probeName_ne_rawName j 3, probeName_ne_rawName j 2, probeName_ne_rawName j 1,
      probeName_ne_rawName j 0, not_false⟩
  have hcl : List.foldl setAdd [] [rawName 0, rawName 1, rawName 2, rawName 3] =
      [rawName 0, rawName 1, rawName 2, rawName 3] := by decide
  obtain ⟨g1, g2, g3⟩ := normGo_all_ok env hn [rawName 0, rawName 1, rawName 2, rawName 3] 0
    (insert (rawName 3) (insert (rawName 2) (insert (rawName 1)
      (insert (rawName 0) (∅ : Store)))))
    [rawName 0, rawName 1, rawName 2, rawName 3] hp0
  simp only [runPipeline, ensureCore, hl, hd1, hd2, hcl, g1, g2, g3, stitch, hc,
    presentResult, hr, hm, ite_true, if_true]
  refine ⟨by decide, by decide, by decide, ?_, by trivial⟩
  intro j
  simp only [cleanupExpected, List.mem_cons, List.not_mem_nil, not_or]
  exact ⟨probeName_ne_rawName j 0, probeName_ne_rawName j 1, probeName_ne_rawName j 2,
    probeName_ne_rawName j 3, probeName_ne_outName j 0, probeName_ne_outName j 1,
    probeName_ne_outName j 2, probeName_ne_outName j 3, not_false⟩

theorem c2_witness :
    (runPipeline okEnv).drained = some cleanupExpected ∧
    (runPipeline okEnv).store = {"stitched.mp4"} :=
  ⟨(c2_ledger_contents okEnv rfl (fun _ => rfl) (fun _ => rfl) rfl rfl rfl).1,
   (c2_ledger_contents okEnv rfl (fun _ => rfl) (fun _ => rfl) rfl rfl rfl).2.1⟩

end VideoStitch
